import Mathlib

/-!
Shallow embedding of the NLP_Library text-analysis toolkit
(`preprocessor.py` and `text_library.py`).

Python dictionaries are modelled as association lists with unique keys,
preserving insertion order (Python dicts are insertion-ordered).
`collections.defaultdict(dict)` reads are modelled by `dd_getitem`, which
returns the looked-up sub-mapping together with the (possibly grown)
registry, since a defaultdict read inserts a default value on a miss.
Python floats are modelled as rationals; a Python `ZeroDivisionError` is
modelled by returning `none` from an `Option`-valued function.
External services (the `pronouncing` phonetic dictionary, TextBlob
sentiment, the HTTP client and the HTML region extractor) are parameters.
-/

namespace NLPLib

/-- Model of Python `str.split()` (split on whitespace runs, dropping empty
pieces), processing the character list with an accumulator of the current
word's characters in reverse. -/
def pySplitAux : List Char → List Char → List String
  | [], acc => if acc = [] then [] else [String.mk acc.reverse]
  | c :: cs, acc =>
    if c.isWhitespace then
      if acc = [] then pySplitAux cs []
      else String.mk acc.reverse :: pySplitAux cs []
    else pySplitAux cs (c :: acc)

/-- Python `text.split()`. -/
def pySplit (s : String) : List String :=
  pySplitAux s.data []

/-- Python dict lookup `m.get(k)`: first (unique) binding of `k`. -/
def dictFind {α β : Type} [DecidableEq α] : List (α × β) → α → Option β
  | [], _ => none
  | (k', v) :: rest, k => if k' = k then some v else dictFind rest k

/-- Python dict assignment `m[k] = v`: update the existing binding in place
(keeping its position) or append a new binding at the end. -/
def dictSet {α β : Type} [DecidableEq α] : List (α × β) → α → β → List (α × β)
  | [], k, v => [(k, v)]
  | (k', v') :: rest, k, v =>
    if k' = k then (k, v) :: rest else (k', v') :: dictSet rest k v

/-- One step of `collections.Counter` construction: count the next word
(`counts[word] += 1` with default 0). -/
def counterAdd (c : List (String × Nat)) (w : String) : List (String × Nat) :=
  if w ∈ c.map Prod.fst then
    c.map (fun p => if p.1 = w then (p.1, p.2 + 1) else p)
  else
    c ++ [(w, 1)]

/-- Python `collections.Counter(words)`: word → occurrence count, keys in
first-occurrence order. -/
def counterOf (ws : List String) : List (String × Nat) :=
  ws.foldl counterAdd []

/-- Distinct elements of a list keeping the FIRST occurrence of each (the
key order of a Python dict/Counter built left to right). -/
def dedupFirst (ws : List String) : List String :=
  (ws.reverse.dedup).reverse

/-! ## preprocessor.py -/

/-- Model of Python's `\w` character class over the ASCII fragment used by
the repository's texts: alphanumeric or underscore. -/
def isWordChar (c : Char) : Bool :=
  c.isAlphanum || c = '_'

/-- `preprocessor.clean_text`: remove punctuation (all of it, or all except
sentence-ending `.!?` when `preserve_punctuation`), lowercase, split into
words, drop stop words when the stop-word collection is non-empty (Python's
`if stop_words:` truthiness test), and re-join with single spaces. -/
def clean_text (text : String) (stop_words : List String)
    (preserve_punctuation : Bool) : String :=
  let text1 :=
    if preserve_punctuation then
      String.mk (text.data.filter
        (fun c => isWordChar c || c.isWhitespace || c = '.' || c = '!' || c = '?'))
    else
      String.mk (text.data.filter (fun c => isWordChar c || c.isWhitespace))
  let text2 := String.mk (text1.data.map Char.toLower)
  let words := pySplit text2
  let words2 :=
    if stop_words ≠ [] then words.filter (fun w => decide (w ∉ stop_words))
    else words
  String.intercalate " " words2

/-- `preprocessor.tokenize_text`: `text.split()`. -/
def tokenize_text (text : String) : List String :=
  pySplit text

/-- `preprocessor.compute_word_count`: `Counter(tokenize_text(text))`. -/
def compute_word_count (text : String) : List (String × Nat) :=
  counterOf (tokenize_text text)

/-- `preprocessor.extract_unique_words`: `set(tokenize_text(text))`, modelled
as the duplicate-free list of tokens (its length is the set's size). -/
def extract_unique_words (text : String) : List String :=
  (tokenize_text text).dedup

/-- `preprocessor.compute_word_repetition`: split, count occurrences, sum
`count - 1` over counter values with `count > 1` and divide by the number of
tokens (times 100).  `none` models the `ZeroDivisionError` raised when the
token list is empty. -/
def compute_word_repetition (text : String) : Option Rat :=
  let words := pySplit text
  let word_counts := counterOf words
  let repeated_words : Nat :=
    (((word_counts.map Prod.snd).filter (fun c => 1 < c)).map (fun c => c - 1)).sum
  if words.length = 0 then none
  else some ((repeated_words : Rat) / (words.length : Rat) * 100)

/-- `preprocessor.compute_rhyme_density`: split, accumulate every token's
rhyme set (`pronouncing.rhymes(word.lower())`, here the parameter
`rhymesOf` applied to the lowercased token) into one collection, count the
tokens belonging to that collection and divide by the token count.  `none`
models the `ZeroDivisionError` on an empty token list. -/
def compute_rhyme_density (rhymesOf : String → List String) (text : String) :
    Option Rat :=
  let words := pySplit text
  let rhymes := words.foldl (fun acc w => acc ++ rhymesOf w.toLower) []
  let rhyme_count := (words.filter (fun w => decide (w ∈ rhymes))).length
  if words.length = 0 then none
  else some ((rhyme_count : Rat) / (words.length : Rat))

/-- Model of an HTTP response as delivered by `requests.get`. -/
structure Response where
  status_code : Nat
  text : String
  deriving DecidableEq

/-- Kinds of Python errors a `preprocessor` call can surface; distinguishes a
network-level failure from the `UnboundLocalError` raised when a local
variable is read without ever having been assigned. -/
inductive PyError where
  | unboundLocal
  | networkError
  deriving DecidableEq

/-- `preprocessor.load_website`: fetch the URL (the HTTP client is the
parameter `get`, the BeautifulSoup region extractor — find all `div`s of the
given class and take each one's visible text — is the parameter
`find_divs`).  Only on status code exactly 200 is `text` assigned the
newline-joined stripped region texts; on any other status the final
`return text` reads an unassigned local, an `UnboundLocalError`. -/
def load_website (get : String → Response)
    (find_divs : String → String → List String)
    (url div_class : String) : Except PyError String :=
  let response := get url
  if response.status_code = 200 then
    Except.ok (String.intercalate "\n"
      ((find_divs response.text div_class).map String.trim))
  else
    Except.error PyError.unboundLocal

/-! ## text_library.py : the document registry -/

/-- Values stored in the registry: cleaned-text strings, word-count
Counters, integer counts and float (here rational) scores. -/
inductive MetricValue where
  | str (s : String)
  | counter (c : List (String × Nat))
  | nat (n : Nat)
  | rat (q : Rat)
  deriving DecidableEq

/-- Document labels.  `TextLibrary.load_text` defaults the label to its
`filename` argument, which is Python `None` (`Option.none`) when the
document came from the web, so labels are optional strings. -/
abbrev Label := Option String

/-- One metric's sub-mapping: document label → metric value. -/
abbrev LabelMap := List (Label × MetricValue)

/-- `TextLibrary.data`, the `defaultdict(dict)` mapping
metric name → (document label → value). -/
abbrev Registry := List (String × LabelMap)

/-- The metric names currently stored in the registry (its key list). -/
def metricNames (d : Registry) : List String :=
  d.map Prod.fst

/-- A read `self.data[m]` of the `defaultdict(dict)`: on a hit return the
sub-mapping and leave the registry unchanged; on a miss insert (and return)
a fresh empty sub-mapping — the read mutates the registry. -/
def dd_getitem (d : Registry) (m : String) : LabelMap × Registry :=
  match dictFind d m with
  | some sub => (sub, d)
  | none => ([], d ++ [(m, [])])

/-- One assignment `self.data[k][label] = v`: defaultdict read of `k`
followed by a dict store under `label`. -/
def registrySet (d : Registry) (k : String) (label : Label) (v : MetricValue) :
    Registry :=
  match dictFind d k with
  | some sub => dictSet d k (dictSet sub label v)
  | none => d ++ [(k, [(label, v)])]

/-- The registration loop of `TextLibrary.load_text`:
`for k, v in results.items(): self.data[k][label] = v`. -/
def register (d : Registry) (label : Label)
    (results : List (String × MetricValue)) : Registry :=
  results.foldl (fun acc kv => registrySet acc kv.1 label kv.2) d

/-- Lookup of one metric value: `self.data[m][L]`, read without the
defaultdict side effect (used to state properties of registry contents). -/
def lookupRegistry (d : Registry) (m : String) (L : Label) : Option MetricValue :=
  match dictFind d m with
  | some sub => dictFind sub L
  | none => none

/-- Lookup in a parser's results dictionary (last binding wins, matching the
overwrite order of repeated dict assignment). -/
def lookupResults : List (String × MetricValue) → String → Option MetricValue
  | [], _ => none
  | p :: rest, m =>
    match lookupResults rest m with
    | some v => some v
    | none => if p.1 = m then some p.2 else none

/-- A whole session of registrations starting from the empty registry. -/
def loadAll (regs : List (Label × List (String × MetricValue))) : Registry :=
  regs.foldl (fun d r => register d r.1 r.2) []

/-- `TextLibrary.default_parser`: read the file (the file system is the
parameter `fs`), build the minimally and fully cleaned variants, and
assemble the results dictionary in the order the source stores its keys.
The TextBlob sentiment analyzer is the parameter `sentiment` (polarity,
subjectivity) and the phonetic dictionary is `rhymesOf`.  The result is
`none` when `compute_word_repetition` or `compute_rhyme_density` raises
(empty token list). -/
def TextLibrary.default_parser (fs : String → String)
    (rhymesOf : String → List String) (sentiment : String → Rat × Rat)
    (stop_words : List String) (filename : String) :
    Option (List (String × MetricValue)) :=
  let raw_text := fs filename
  let minimally_cleaned_text := clean_text raw_text [] true
  let fully_cleaned_text := clean_text raw_text stop_words false
  match compute_word_repetition fully_cleaned_text,
        compute_rhyme_density rhymesOf fully_cleaned_text with
  | some rep, some rd =>
    some [("minimally_cleaned_text", MetricValue.str minimally_cleaned_text),
          ("fully_cleaned_text", MetricValue.str fully_cleaned_text),
          ("wordcount", MetricValue.counter (compute_word_count fully_cleaned_text)),
          ("unique words", MetricValue.nat (extract_unique_words fully_cleaned_text).length),
          ("word_repetition", MetricValue.rat rep),
          ("polarity", MetricValue.rat (sentiment minimally_cleaned_text).1),
          ("subjectivity", MetricValue.rat (sentiment minimally_cleaned_text).2),
          ("rhyme_density", MetricValue.rat rd)]
  | _, _ => none

/-- The label-defaulting and storing epilogue of `TextLibrary.load_text`
(the parser call producing `results` has already run; `results` is its
value).  `if label is None: label = filename` — the `url` and `div_class`
arguments play no part in the default —
then `for k, v in results.items(): self.data[k][label] = v`. -/
def TextLibrary.load_text (data : Registry)
    (filename url div_class label : Option String)
    (results : List (String × MetricValue)) : Registry :=
  let lbl : Label :=
    match label with
    | none => filename
    | some l => some l
  register data lbl results

/-- Descending insertion by count, keeping earlier elements ahead of later
ties: the order produced by `Counter.most_common`. -/
def insertByCount (x : String × Nat) : List (String × Nat) → List (String × Nat)
  | [] => [x]
  | y :: ys => if x.2 ≤ y.2 then y :: insertByCount x ys else x :: y :: ys

/-- Stable sort of counter items by descending count. -/
def sortByCountDesc (c : List (String × Nat)) : List (String × Nat) :=
  c.foldl (fun acc x => insertByCount x acc) []

/-- `Counter.most_common(k)`: the `k` highest-count items, counts
descending. -/
def most_common (c : List (String × Nat)) (k : Nat) : List (String × Nat) :=
  (sortByCountDesc c).take k

/-- The Counter stored under a label of the `"wordcount"` sub-mapping (the
only value shape `TextLibrary.sankey` ever reads there). -/
def MetricValue.asCounter : MetricValue → List (String × Nat)
  | MetricValue.counter c => c
  | _ => []

/-- The edge-list construction of `TextLibrary.sankey`: a defaultdict read
of `self.data["wordcount"]`, then one row `(label, word, count)` per label
and per entry of that label's `most_common(k)`.  Returns the rows together
with the registry as left by the defaultdict read; the plotly rendering of
the rows is outside the model. -/
def TextLibrary.sankey_rows (data : Registry) (k : Nat) :
    List (Label × String × Nat) × Registry :=
  let got := dd_getitem data "wordcount"
  (got.1.foldr
    (fun p acc =>
      ((most_common (MetricValue.asCounter p.2) k).map
        (fun q => (p.1, q.1, q.2))) ++ acc)
    [], got.2)

/-! ## Spec-side definitions (formalising the claims' own words, for
comparison against the source-derived functions above) -/

/-- Stated repetition numerator, following the claim's words: the sum over
(distinct) words with occurrence count > 1 of (count − 1). -/
def specRepeatedCount (ws : List String) : Nat :=
  (ws.dedup.map (fun u => if 1 < ws.count u then ws.count u - 1 else 0)).sum

/-- Stated rhyming-token count, following the claim's words: the number of
tokens that rhyme with at least one word of the same document. -/
def specRhymeCount (rhymesOf : String → List String) (ws : List String) : Nat :=
  (ws.filter (fun w => decide (∃ w' ∈ ws, w ∈ rhymesOf w'.toLower))).length

/-! ## Association-list lemmas -/

theorem dictFind_dictSet_same {α β : Type} [DecidableEq α]
    (m : List (α × β)) (k : α) (v : β) : dictFind (dictSet m k v) k = some v := by
  induction m with
  | nil => simp [dictSet, dictFind]
  | cons p rest ih =>
    by_cases h : p.1 = k
    · simp [dictSet, dictFind, h]
    · simp [dictSet, dictFind, h, ih]

theorem dictFind_dictSet_ne {α β : Type} [DecidableEq α]
    (m : List (α × β)) (k k' : α) (v : β) (h : k' ≠ k) :
    dictFind (dictSet m k v) k' = dictFind m k' := by
  induction m with
  | nil => simp [dictSet, dictFind, Ne.symm h]
  | cons p rest ih =>
    by_cases hk : p.1 = k
    · simp [dictSet, dictFind, hk, h, Ne.symm h]
    · by_cases hk' : p.1 = k'
      · simp [dictSet, dictFind, hk, hk', h]
      · simp [dictSet, dictFind, hk, hk', h, ih]

theorem dictFind_append {α β : Type} [DecidableEq α]
    (m m' : List (α × β)) (k : α) :
    dictFind (m ++ m') k =
      match dictFind m k with
      | some v => some v
      | none => dictFind m' k := by
  induction m with
  | nil => simp [dictFind]
  | cons p rest ih =>
    by_cases h : p.1 = k
    · simp [dictFind, h]
    · simp [dictFind, h, ih]

theorem dictFind_eq_none_iff {α β : Type} [DecidableEq α]
    (m : List (α × β)) (k : α) :
    dictFind m k = none ↔ k ∉ m.map Prod.fst := by
  induction m with
  | nil => simp [dictFind]
  | cons p rest ih =>
    by_cases h : p.1 = k
    · simp [dictFind, h]
    · simp [dictFind, h, ih, Ne.symm h]

theorem keys_dictSet {α β : Type} [DecidableEq α]
    (m : List (α × β)) (k k' : α) (v : β) (hne : k' ≠ k) :
    (k' ∈ (dictSet m k v).map Prod.fst) ↔ k' ∈ m.map Prod.fst := by
  induction m with
  | nil => simp [dictSet, hne]
  | cons p rest ih =>
    by_cases h : p.1 = k
    · simp [dictSet, h, hne]
    · simp [dictSet, h, ih]

/-! ## Registry lemmas -/

theorem lookupRegistry_registrySet_same (d : Registry) (k : String)
    (L : Label) (v : MetricValue) :
    lookupRegistry (registrySet d k L v) k L = some v := by
  unfold registrySet lookupRegistry
  cases hf : dictFind d k with
  | some sub => simp [dictFind_dictSet_same, dictFind_dictSet_same sub L v]
  | none =>
    rw [dictFind_append, hf]
    simp [dictFind]

theorem lookupRegistry_registrySet_ne_metric (d : Registry) (k m : String)
    (L L' : Label) (v : MetricValue) (h : m ≠ k) :
    lookupRegistry (registrySet d k L v) m L' = lookupRegistry d m L' := by
  unfold registrySet lookupRegistry
  cases hf : dictFind d k with
  | some sub => rw [dictFind_dictSet_ne d k m _ h]
  | none =>
    rw [dictFind_append]
    cases hm : dictFind d m with
    | some sub => rfl
    | none => simp [dictFind, Ne.symm h]

theorem lookupRegistry_registrySet_ne_label (d : Registry) (k m : String)
    (L L' : Label) (v : MetricValue) (h : L' ≠ L) :
    lookupRegistry (registrySet d k L v) m L' = lookupRegistry d m L' := by
  by_cases hm : m = k
  · subst hm
    unfold registrySet lookupRegistry
    cases hf : dictFind d m with
    | some sub =>
      rw [dictFind_dictSet_same]
      exact dictFind_dictSet_ne sub L L' v h
    | none =>
      rw [dictFind_append, hf]
      simp [dictFind, Ne.symm h]
  · exact lookupRegistry_registrySet_ne_metric d k m L L' v hm

theorem lookupResults_eq_none_of_not_mem (results : List (String × MetricValue))
    (m : String) (h : m ∉ results.map Prod.fst) : lookupResults results m = none := by
  induction results with
  | nil => rfl
  | cons p rest ih =>
    simp only [List.map_cons, List.mem_cons] at h
    push_neg at h
    unfold lookupResults
    rw [ih h.2]
    simp [Ne.symm h.1]

theorem register_lookup (L : Label) (m : String)
    (results : List (String × MetricValue)) :
    ∀ d : Registry,
      lookupRegistry (register d L results) m L =
        match lookupResults results m with
        | some v => some v
        | none => lookupRegistry d m L := by
  induction results with
  | nil => intro d; rfl
  | cons p rest ih =>
    intro d
    have hstep : register d L (p :: rest) = register (registrySet d p.1 L p.2) L rest := rfl
    rw [hstep, ih (registrySet d p.1 L p.2)]
    have hcons : lookupResults (p :: rest) m =
        match lookupResults rest m with
        | some v => some v
        | none => if p.1 = m then some p.2 else none := rfl
    rw [hcons]
    cases hr : lookupResults rest m with
    | some v => rfl
    | none =>
      by_cases hm : p.1 = m
      · subst hm
        simp [lookupRegistry_registrySet_same]
      · simp [hm, lookupRegistry_registrySet_ne_metric d p.1 m L L p.2
          (Ne.symm hm)]

theorem countAppendSingleton (l : List String) (w u : String) :
    (l ++ [w]).count u = l.count u + if u = w then 1 else 0 := by
  rw [List.count_append, List.count_singleton]
  by_cases h : u = w
  · simp [h]
  · simp [h, Ne.symm h]

theorem mem_dedupFirst (ws : List String) (u : String) :
    u ∈ dedupFirst ws ↔ u ∈ ws := by
  simp [dedupFirst]

theorem nodup_dedupFirst (ws : List String) : (dedupFirst ws).Nodup := by
  simp only [dedupFirst, List.nodup_reverse]
  exact List.nodup_dedup _

theorem dedupFirst_append_singleton (ws : List String) (w : String) :
    dedupFirst (ws ++ [w]) =
      if w ∈ ws then dedupFirst ws else dedupFirst ws ++ [w] := by
  unfold dedupFirst
  rw [List.reverse_append]
  by_cases hw : w ∈ ws
  · have : w ∈ ws.reverse := List.mem_reverse.mpr hw
    simp [List.dedup_cons_of_mem this, hw]
  · have : w ∉ ws.reverse := fun hc => hw (List.mem_reverse.mp hc)
    simp [List.dedup_cons_of_not_mem this, hw]

theorem counterOf_append_singleton (ws : List String) (w : String) :
    counterOf (ws ++ [w]) = counterAdd (counterOf ws) w := by
  simp [counterOf, List.foldl_append]

/-- Characterization of the Counter model: `counterOf ws` is exactly the
distinct words of `ws` in first-occurrence order, each paired with its
occurrence count. -/
theorem counterOf_eq (ws : List String) :
    counterOf ws = (dedupFirst ws).map (fun u => (u, ws.count u)) := by
  induction ws using List.reverseRecOn with
  | nil => rfl
  | append_singleton ws w ih =>
    rw [counterOf_append_singleton, ih, dedupFirst_append_singleton]
    have hkeys : ((dedupFirst ws).map (fun u => (u, ws.count u))).map Prod.fst
        = dedupFirst ws := by
      simp [List.map_map, Function.comp_def]
    by_cases hw : w ∈ ws
    · have hmem : w ∈ ((dedupFirst ws).map (fun u => (u, ws.count u))).map Prod.fst := by
        rw [hkeys]; exact (mem_dedupFirst ws w).mpr hw
      rw [counterAdd, if_pos hmem, if_pos hw, List.map_map]
      apply List.map_congr_left
      intro u _
      by_cases hu : u = w
      · simp [Function.comp, hu, countAppendSingleton]
      · simp [Function.comp, hu, countAppendSingleton, Ne.symm hu]
    · have hmem : w ∉ ((dedupFirst ws).map (fun u => (u, ws.count u))).map Prod.fst := by
        rw [hkeys]; exact fun hc => hw ((mem_dedupFirst ws w).mp hc)
      rw [counterAdd, if_neg hmem, if_neg hw, List.map_append]
      congr 1
      · apply List.map_congr_left
        intro u hu
        have huw : u ≠ w := fun he => hw (he ▸ (mem_dedupFirst ws u).mp hu)
        simp [countAppendSingleton, huw]
      · simp [countAppendSingleton, List.count_eq_zero.mpr hw]

/-- Every count stored in a word Counter is positive. -/
theorem counterOf_mem_pos (ws : List String) (p : String × Nat)
    (hp : p ∈ counterOf ws) : 0 < p.2 := by
  rw [counterOf_eq] at hp
  obtain ⟨u, hu, he⟩ := List.mem_map.mp hp
  subst he
  exact List.count_pos_iff.mpr ((mem_dedupFirst ws u).mp hu)

theorem dedupFirst_perm_dedup (ws : List String) :
    List.Perm (dedupFirst ws) ws.dedup :=
  (List.reverse_perm ws.reverse.dedup).trans ((List.reverse_perm ws).dedup)

/-- Summing `f` over a filtered list equals summing `if p then f else 0`
over the whole list. -/
theorem sum_filter_map (p : Nat → Bool) (f : Nat → Nat) (l : List Nat) :
    ((l.filter p).map f).sum = (l.map (fun c => if p c then f c else 0)).sum := by
  induction l with
  | nil => rfl
  | cons c rest ih =>
    by_cases hc : p c
    · simp [List.filter_cons, hc, ih]
    · simp [List.filter_cons, hc, ih]

/-- The counter-based repeated-word total of `compute_word_repetition`
equals the claim's formulation over distinct words. -/
theorem repeated_eq_spec (ws : List String) :
    ((((counterOf ws).map Prod.snd).filter (fun c => 1 < c)).map (fun c => c - 1)).sum
      = specRepeatedCount ws := by
  have hperm := List.Perm.sum_eq ((dedupFirst_perm_dedup ws).map
    (fun u => if 1 < ws.count u then ws.count u - 1 else 0))
  rw [counterOf_eq, List.map_map, sum_filter_map, List.map_map]
  unfold specRepeatedCount
  rw [← hperm]
  congr 1
  apply List.map_congr_left
  intro u _
  by_cases h : 1 < ws.count u <;> simp [Function.comp, h]

theorem register_lookup_ne_label (L L' : Label) (m : String)
    (results : List (String × MetricValue)) (h : L' ≠ L) :
    ∀ d : Registry,
      lookupRegistry (register d L results) m L' = lookupRegistry d m L' := by
  induction results with
  | nil => intro d; rfl
  | cons p rest ih =>
    intro d
    have hstep : register d L (p :: rest) = register (registrySet d p.1 L p.2) L rest := rfl
    rw [hstep, ih (registrySet d p.1 L p.2),
      lookupRegistry_registrySet_ne_label d p.1 m L L' p.2 h]

/-! ## Further helper lemmas -/

theorem pySplitAux_all_whitespace (cs : List Char)
    (h : ∀ c ∈ cs, c.isWhitespace) : pySplitAux cs [] = [] := by
  induction cs with
  | nil => rfl
  | cons c rest ih =>
    have hc : c.isWhitespace := h c (List.mem_cons_self c rest)
    simp only [pySplitAux, hc, if_true, if_pos rfl]
    exact ih (fun c' hc' => h c' (List.mem_cons_of_mem c hc'))

theorem length_insertByCount (x : String × Nat) (l : List (String × Nat)) :
    (insertByCount x l).length = l.length + 1 := by
  induction l with
  | nil => rfl
  | cons y ys ih =>
    by_cases h : x.2 ≤ y.2
    · simp [insertByCount, h, ih]
    · simp [insertByCount, h]

theorem mem_insertByCount (x y : String × Nat) (l : List (String × Nat))
    (h : y ∈ insertByCount x l) : y = x ∨ y ∈ l := by
  induction l with
  | nil => simpa [insertByCount] using h
  | cons z zs ih =>
    by_cases hz : x.2 ≤ z.2
    · simp only [insertByCount, hz, if_true, List.mem_cons] at h
      rcases h with h | h
      · exact Or.inr (List.mem_cons.mpr (Or.inl h))
      · rcases ih h with h' | h'
        · exact Or.inl h'
        · exact Or.inr (List.mem_cons.mpr (Or.inr h'))
    · simp only [insertByCount, hz, if_false, List.mem_cons] at h
      rcases h with h | h | h
      · exact Or.inl h
      · exact Or.inr (List.mem_cons.mpr (Or.inl h))
      · exact Or.inr (List.mem_cons.mpr (Or.inr h))

theorem length_sortByCountDesc_aux (l : List (String × Nat)) :
    ∀ acc : List (String × Nat),
      (l.foldl (fun acc x => insertByCount x acc) acc).length
        = acc.length + l.length := by
  induction l with
  | nil => intro acc; rfl
  | cons x xs ih =>
    intro acc
    rw [List.foldl_cons, ih (insertByCount x acc), length_insertByCount,
      List.length_cons]
    omega

theorem length_sortByCountDesc (c : List (String × Nat)) :
    (sortByCountDesc c).length = c.length := by
  rw [sortByCountDesc, length_sortByCountDesc_aux]
  simp

theorem mem_sortByCountDesc_aux (l : List (String × Nat)) :
    ∀ (acc : List (String × Nat)) (y : String × Nat),
      y ∈ l.foldl (fun acc x => insertByCount x acc) acc → y ∈ acc ∨ y ∈ l := by
  induction l with
  | nil => intro acc y h; exact Or.inl h
  | cons x xs ih =>
    intro acc y h
    rw [List.foldl_cons] at h
    rcases ih (insertByCount x acc) y h with h' | h'
    · rcases mem_insertByCount x y acc h' with h'' | h''
      · exact Or.inr (List.mem_cons.mpr (Or.inl h''))
      · exact Or.inl h''
    · exact Or.inr (List.mem_cons.mpr (Or.inr h'))

theorem mem_sortByCountDesc (c : List (String × Nat)) (y : String × Nat)
    (h : y ∈ sortByCountDesc c) : y ∈ c := by
  rcases mem_sortByCountDesc_aux c [] y h with h' | h'
  · simp at h'
  · exact h'

theorem mem_most_common (c : List (String × Nat)) (k : Nat) (y : String × Nat)
    (h : y ∈ most_common c k) : y ∈ c :=
  mem_sortByCountDesc c y (List.take_subset k (sortByCountDesc c) h)

theorem length_most_common (c : List (String × Nat)) (k : Nat) (hk : k ≤ c.length) :
    (most_common c k).length = k := by
  rw [most_common, List.length_take, length_sortByCountDesc]
  omega

theorem metricNames_registrySet_not_mem (d : Registry) (k : String) (L : Label)
    (v : MetricValue) (m : String) (hm : m ∉ metricNames d) (hne : m ≠ k) :
    m ∉ metricNames (registrySet d k L v) := by
  unfold registrySet metricNames
  cases dictFind d k with
  | some sub =>
    intro hc
    exact hm ((keys_dictSet d k m (dictSet sub L v) hne).mp hc)
  | none =>
    rw [List.map_append]
    intro hc
    rcases List.mem_append.mp hc with hc' | hc'
    · exact hm hc'
    · simp at hc'
      exact hne hc'

theorem metricNames_register_not_mem (d : Registry) (L : Label)
    (results : List (String × MetricValue)) (m : String)
    (hd : m ∉ metricNames d) (hr : m ∉ results.map Prod.fst) :
    m ∉ metricNames (register d L results) := by
  induction results generalizing d with
  | nil => exact hd
  | cons p rest ih =>
    simp only [List.map_cons, List.mem_cons] at hr
    push_neg at hr
    exact ih (registrySet d p.1 L p.2)
      (metricNames_registrySet_not_mem d p.1 L p.2 m hd hr.1) hr.2

theorem metricNames_loadAll_aux
    (regs : List (Label × List (String × MetricValue))) (m : String)
    (h : ∀ r ∈ regs, m ∉ r.2.map Prod.fst) :
    ∀ d : Registry, m ∉ metricNames d →
      m ∉ metricNames (regs.foldl (fun d r => register d r.1 r.2) d) := by
  induction regs with
  | nil => intro d hd; exact hd
  | cons r rest ih =>
    intro d hd
    rw [List.foldl_cons]
    exact ih (fun r' hr' => h r' (List.mem_cons_of_mem r hr'))
      (register d r.1 r.2)
      (metricNames_register_not_mem d r.1 r.2 m hd (h r (List.mem_cons_self r rest)))

theorem metricNames_loadAll_not_mem
    (regs : List (Label × List (String × MetricValue))) (m : String)
    (h : ∀ r ∈ regs, m ∉ r.2.map Prod.fst) :
    m ∉ metricNames (loadAll regs) := by
  unfold loadAll
  exact metricNames_loadAll_aux regs m h [] (by simp [metricNames])

theorem mem_foldl_append {α : Type} (f : String → List α) (ws : List String)
    (x : α) :
    ∀ acc : List α,
      (x ∈ ws.foldl (fun acc w => acc ++ f w) acc)
        ↔ (x ∈ acc ∨ ∃ w ∈ ws, x ∈ f w) := by
  induction ws with
  | nil => intro acc; simp
  | cons w rest ih =>
    intro acc
    rw [List.foldl_cons, ih (acc ++ f w)]
    simp only [List.mem_append, List.mem_cons]
    constructor
    · rintro ((h | h) | ⟨w', hw', hx⟩)
      · exact Or.inl h
      · exact Or.inr ⟨w, Or.inl rfl, h⟩
      · exact Or.inr ⟨w', Or.inr hw', hx⟩
    · rintro (h | ⟨w', hw' | hw', hx⟩)
      · exact Or.inl (Or.inl h)
      · exact Or.inl (Or.inr (hw' ▸ hx))
      · exact Or.inr ⟨w', hw', hx⟩

/-! ## Claim theorems -/

/-- C1: for every label `L` registered twice, the second registration
overwrites `registry[m][L]` only for metric names `m` in its own results:
any metric produced by the first registration and absent from the second
keeps its first-registration value under `L`, unchanged. -/
theorem claim_C1 (d : Registry) (L : Label)
    (r1 r2 : List (String × MetricValue)) (m : String) (v : MetricValue)
    (h1 : lookupResults r1 m = some v) (h2 : m ∉ r2.map Prod.fst) :
    lookupRegistry (register (register d L r1) L r2) m L
        = lookupRegistry (register d L r1) m L ∧
    lookupRegistry (register (register d L r1) L r2) m L = some v := by
  have hr2 := lookupResults_eq_none_of_not_mem r2 m h2
  have ha := register_lookup L m r2 (register d L r1)
  rw [hr2] at ha
  have hb := register_lookup L m r1 d
  rw [h1] at hb
  exact ⟨ha, by rw [ha]; exact hb⟩

theorem claim_C1_witness :
    lookupRegistry (register (register [] (some "A") [("u", MetricValue.nat 7)])
        (some "A") [("wordcount", MetricValue.nat 9)]) "u" (some "A")
      = lookupRegistry (register [] (some "A") [("u", MetricValue.nat 7)])
          "u" (some "A") ∧
    lookupRegistry (register (register [] (some "A") [("u", MetricValue.nat 7)])
        (some "A") [("wordcount", MetricValue.nat 9)]) "u" (some "A")
      = some (MetricValue.nat 7) :=
  claim_C1 [] (some "A") [("u", MetricValue.nat 7)]
    [("wordcount", MetricValue.nat 9)] "u" (MetricValue.nat 7)
    (by decide) (by decide)

/-- C2: querying the registry for a metric name never produced by any
registration returns the empty label-to-value mapping; the query is a total
function of the model, i.e. it never raises. -/
theorem claim_C2 (regs : List (Label × List (String × MetricValue)))
    (m : String) (h : ∀ r ∈ regs, m ∉ r.2.map Prod.fst) :
    (dd_getitem (loadAll regs) m).1 = [] := by
  have hm := metricNames_loadAll_not_mem regs m h
  have hf : dictFind (loadAll regs) m = none := (dictFind_eq_none_iff _ m).mpr hm
  unfold dd_getitem
  rw [hf]

theorem claim_C2_witness :
    (dd_getitem
      (loadAll [((some "A" : Label), [("wordcount", MetricValue.nat 1)])])
      "polarity").1 = [] :=
  claim_C2 [((some "A" : Label), [("wordcount", MetricValue.nat 1)])]
    "polarity" (by decide)

/-- C9: a defaultdict read of a metric name that is not stored mutates the
registry: it returns the empty sub-mapping, but afterwards that metric name
is a key of the registry (bound to an empty sub-mapping), so the key list
has grown by exactly that name.  `TextLibrary.sankey` performs this read
with the name `"wordcount"`. -/
theorem claim_C9 (d : Registry) (m : String) (h : m ∉ metricNames d) :
    (dd_getitem d m).1 = [] ∧
    dictFind (dd_getitem d m).2 m = some [] ∧
    metricNames (dd_getitem d m).2 = metricNames d ++ [m] := by
  have hf : dictFind d m = none := (dictFind_eq_none_iff d m).mpr h
  unfold dd_getitem
  rw [hf]
  refine ⟨rfl, ?_, ?_⟩
  · rw [dictFind_append, hf]
    simp [dictFind]
  · simp [metricNames]

theorem claim_C9_witness :
    (dd_getitem [("wordcount", [((some "A" : Label), MetricValue.nat 1)])]
      "polarity").1 = [] ∧
    dictFind (dd_getitem [("wordcount", [((some "A" : Label), MetricValue.nat 1)])]
      "polarity").2 "polarity" = some [] ∧
    metricNames (dd_getitem [("wordcount", [((some "A" : Label), MetricValue.nat 1)])]
      "polarity").2
      = metricNames [("wordcount", [((some "A" : Label), MetricValue.nat 1)])]
          ++ ["polarity"] :=
  claim_C9 [("wordcount", [((some "A" : Label), MetricValue.nat 1)])]
    "polarity" (by decide)

/-- C3: for a non-empty token list `compute_word_repetition` returns
(sum over words with occurrence count > 1 of (count − 1)) / token count
× 100; it returns 0 when all tokens are distinct; and on an empty token
list it fails with a division by zero (modelled by `none`). -/
theorem claim_C3 (text : String) :
    (pySplit text ≠ [] →
      compute_word_repetition text
        = some ((specRepeatedCount (pySplit text) : Rat)
            / ((pySplit text).length : Rat) * 100)) ∧
    ((pySplit text).Nodup → pySplit text ≠ [] →
      compute_word_repetition text = some 0) ∧
    (pySplit text = [] → compute_word_repetition text = none) := by
  refine ⟨?_, ?_, ?_⟩
  · intro h
    have hlen : ¬((pySplit text).length = 0) :=
      fun hc => h (List.length_eq_zero.mp hc)
    simp only [compute_word_repetition, hlen, if_false, repeated_eq_spec]
  · intro hnd h
    have hlen : ¬((pySplit text).length = 0) :=
      fun hc => h (List.length_eq_zero.mp hc)
    have hzero : specRepeatedCount (pySplit text) = 0 := by
      apply List.sum_eq_zero
      intro x hx
      obtain ⟨u, hu, he⟩ := List.mem_map.mp hx
      have hle := List.nodup_iff_count_le_one.mp hnd u
      rw [← he]
      simp [Nat.not_lt.mpr hle]
    simp only [compute_word_repetition, hlen, if_false, repeated_eq_spec, hzero]
    norm_num
  · intro h
    simp [compute_word_repetition, h]

theorem claim_C3_witness :
    compute_word_repetition "to to be"
      = some ((specRepeatedCount (pySplit "to to be") : Rat)
          / ((pySplit "to to be").length : Rat) * 100) ∧
    compute_word_repetition "a b c" = some 0 ∧
    compute_word_repetition "   " = none :=
  ⟨(claim_C3 "to to be").1 (by decide),
   (claim_C3 "a b c").2.1 (by decide) (by decide),
   (claim_C3 "   ").2.2 (by decide)⟩

/-- C5: on a non-empty token list `compute_rhyme_density` equals the number
of tokens belonging to the union, over all tokens of the document, of each
token's rhyme set, divided by the token count — a token counts as rhyming
when it rhymes with any word of the same document, not only via pairwise
matching. -/
theorem claim_C5 (rhymesOf : String → List String) (text : String)
    (h : pySplit text ≠ []) :
    compute_rhyme_density rhymesOf text
      = some ((specRhymeCount rhymesOf (pySplit text) : Rat)
          / ((pySplit text).length : Rat)) := by
  have hlen : ¬((pySplit text).length = 0) :=
    fun hc => h (List.length_eq_zero.mp hc)
  have hfilter :
      (pySplit text).filter
        (fun w => decide (w ∈ (pySplit text).foldl
          (fun acc w => acc ++ rhymesOf w.toLower) []))
      = (pySplit text).filter
          (fun w => decide (∃ w' ∈ pySplit text, w ∈ rhymesOf w'.toLower)) := by
    apply List.filter_congr
    intro w _
    simp only [decide_eq_decide]
    rw [mem_foldl_append]
    simp
  simp only [compute_rhyme_density, hlen, if_false, specRhymeCount, hfilter]

theorem claim_C5_witness :
    compute_rhyme_density (fun w => if w = "cat" then ["hat"] else [])
        "cat hat bat"
      = some ((specRhymeCount (fun w => if w = "cat" then ["hat"] else [])
          (pySplit "cat hat bat") : Rat) / ((pySplit "cat hat bat").length : Rat)) :=
  claim_C5 (fun w => if w = "cat" then ["hat"] else []) "cat hat bat" (by decide)

/-- C10: `compute_rhyme_density` fails with a division by zero (modelled by
`none`) exactly when the token list is empty, which happens in particular
for empty or whitespace-only input. -/
theorem claim_C10 (rhymesOf : String → List String) (text : String) :
    (compute_rhyme_density rhymesOf text = none ↔ pySplit text = []) ∧
    ((∀ c ∈ text.data, c.isWhitespace) →
      compute_rhyme_density rhymesOf text = none) := by
  have hiff : compute_rhyme_density rhymesOf text = none ↔ pySplit text = [] := by
    constructor
    · intro h
      by_contra hne
      have hlen : ¬((pySplit text).length = 0) :=
        fun hc => hne (List.length_eq_zero.mp hc)
      simp only [compute_rhyme_density, hlen, if_false] at h
      exact Option.noConfusion h
    · intro h
      simp [compute_rhyme_density, h]
  refine ⟨hiff, fun h => hiff.mpr ?_⟩
  exact pySplitAux_all_whitespace text.data h

theorem claim_C10_witness :
    compute_rhyme_density (fun _ => []) "  " = none :=
  (claim_C10 (fun _ => []) "  ").2 (by decide)

/-- A file system holding the scenario text of C4. -/
def fsToBe : String → String := fun _ => "to be or not to be"

/-- A phonetic dictionary with no rhymes (concrete external collaborator for
closed statements). -/
def rhymesNone : String → List String := fun _ => []

/-- A sentiment analyzer returning zero scores (concrete external
collaborator for closed statements). -/
def sentiZero : String → Rat × Rat := fun _ => (0, 0)

/-- C4 as stated fails: parsing the file text "to be or not to be" yields a
repetition percentage of 100/3 (≈ 33.33), not 50.0 — the counter has two
words of count 2, so the repeated-word total is (2−1)+(2−1) = 2 out of 6
tokens. -/
theorem claim_C4_counterexample :
    (TextLibrary.default_parser fsToBe rhymesNone sentiZero [] "A").bind
        (fun rs => lookupResults rs "word_repetition")
      = some (MetricValue.rat (((2 : Nat) : Rat) / ((6 : Nat) : Rat) * 100)) ∧
    ((2 : Nat) : Rat) / ((6 : Nat) : Rat) * 100 = (100 : Rat) / 3 ∧
    ((2 : Nat) : Rat) / ((6 : Nat) : Rat) * 100 ≠ (50 : Rat) := by
  refine ⟨rfl, by norm_num, by norm_num⟩

/-- C4 amended: registering the file text "to be or not to be" through the
default parsing pipeline with an empty stop-word set yields word count
{to: 2, be: 2, or: 1, not: 1}, unique-word count 4, and repetition
percentage 100/3 (≈ 33.33), for any phonetic dictionary and sentiment
analyzer. -/
theorem claim_C4_amended (rhymesOf : String → List String)
    (sentiment : String → Rat × Rat) :
    ∃ rs, TextLibrary.default_parser fsToBe rhymesOf sentiment [] "A" = some rs ∧
      lookupResults rs "wordcount"
        = some (MetricValue.counter [("to", 2), ("be", 2), ("or", 1), ("not", 1)]) ∧
      lookupResults rs "unique words" = some (MetricValue.nat 4) ∧
      lookupResults rs "word_repetition" = some (MetricValue.rat ((100 : Rat) / 3)) := by
  have hwr : compute_word_repetition (clean_text "to be or not to be" [] false)
      = some ((100 : Rat) / 3) := by
    have h1 : compute_word_repetition (clean_text "to be or not to be" [] false)
        = some (((2 : Nat) : Rat) / ((6 : Nat) : Rat) * 100) := rfl
    rw [h1]
    norm_num
  cases hrd : compute_rhyme_density rhymesOf
      (clean_text "to be or not to be" [] false) with
  | none =>
    exfalso
    have hlen : ¬((pySplit (clean_text "to be or not to be" [] false)).length = 0) := by
      decide
    simp only [compute_rhyme_density, hlen, if_false] at hrd
    exact Option.noConfusion hrd
  | some rd =>
    refine ⟨[("minimally_cleaned_text",
        MetricValue.str (clean_text "to be or not to be" [] true)),
      ("fully_cleaned_text",
        MetricValue.str (clean_text "to be or not to be" [] false)),
      ("wordcount",
        MetricValue.counter (compute_word_count (clean_text "to be or not to be" [] false))),
      ("unique words",
        MetricValue.nat (extract_unique_words (clean_text "to be or not to be" [] false)).length),
      ("word_repetition", MetricValue.rat ((100 : Rat) / 3)),
      ("polarity", MetricValue.rat (sentiment (clean_text "to be or not to be" [] true)).1),
      ("subjectivity", MetricValue.rat (sentiment (clean_text "to be or not to be" [] true)).2),
      ("rhyme_density", MetricValue.rat rd)], ?_, rfl, rfl, rfl⟩
    simp only [TextLibrary.default_parser, fsToBe]
    rw [hwr, hrd]

/-- The results dictionary of a web registration used in the C6
counterexample. -/
def webResults : List (String × MetricValue) := [("wordcount", MetricValue.nat 1)]

/-- C6 fails for web documents: registering with `filename = None`,
`url` supplied and no label stores the results under label `None`
(Python's `label = filename`), not under the URL — the URL label stays
unbound. -/
theorem claim_C6_counterexample :
    lookupRegistry (TextLibrary.load_text [] none (some "https://genius.com/x")
        (some "lyrics") none webResults) "wordcount"
        (some "https://genius.com/x") = none ∧
    lookupRegistry (TextLibrary.load_text [] none (some "https://genius.com/x")
        (some "lyrics") none webResults) "wordcount" none
      = some (MetricValue.nat 1) := by
  constructor
  · decide
  · decide

/-- C6 amended: when no explicit label is supplied the document is
registered under the `filename` argument — the source filename for file
documents, and Python `None` (not the URL) for web documents, whose URL
label remains untouched. -/
theorem claim_C6_amended (d : Registry) (filename url div_class : Option String)
    (results : List (String × MetricValue)) (m : String) (v : MetricValue)
    (h : lookupResults results m = some v) :
    lookupRegistry (TextLibrary.load_text d filename url div_class none results)
        m filename = some v ∧
    (∀ u : String, filename = none → url = some u →
      lookupRegistry (TextLibrary.load_text d filename url div_class none results)
          m (some u) = lookupRegistry d m (some u)) := by
  constructor
  · have hl := register_lookup filename m results d
    rw [h] at hl
    exact hl
  · intro u hf _
    subst hf
    exact register_lookup_ne_label none (some u) m results
      (Option.some_ne_none u) d

theorem claim_C6_amended_witness :
    lookupRegistry (TextLibrary.load_text [] (some "f.txt") none none none
        [("wordcount", MetricValue.nat 3)]) "wordcount" (some "f.txt")
      = some (MetricValue.nat 3) ∧
    (∀ u : String, (some "f.txt" : Option String) = none → (none : Option String) = some u →
      lookupRegistry (TextLibrary.load_text [] (some "f.txt") none none none
          [("wordcount", MetricValue.nat 3)]) "wordcount" (some u)
        = lookupRegistry [] "wordcount" (some u)) :=
  claim_C6_amended [] (some "f.txt") none none
    [("wordcount", MetricValue.nat 3)] "wordcount" (MetricValue.nat 3) (by decide)

/-- An HTTP client answering 404 to every request. -/
def http404 : String → Response := fun _ => { status_code := 404, text := "" }

/-- An HTTP client answering 200 with a fixed body. -/
def http200 : String → Response := fun _ => { status_code := 200, text := "<html>" }

/-- A region extractor matching no content region. -/
def findNone : String → String → List String := fun _ _ => []

/-- A region extractor yielding two regions with surrounding whitespace. -/
def findTwo : String → String → List String := fun _ _ => ["a ", " b"]

/-- C7 fails on the error kind: on a non-success HTTP status
`load_website` raises `UnboundLocalError` (the local `text` is returned
without ever being assigned), which is not a NetworkError-kind error. -/
theorem claim_C7_counterexample :
    load_website http404 findNone "https://genius.com/x" "lyrics"
      = Except.error PyError.unboundLocal ∧
    PyError.unboundLocal ≠ PyError.networkError := by
  constructor
  · rfl
  · decide

/-- C7 amended: `load_website` returns the newline-joined stripped visible
texts of all matching regions when the HTTP status is exactly 200, and
fails with an `UnboundLocalError` — not a NetworkError-kind error — on any
other status (including non-200 success statuses). -/
theorem claim_C7_amended (get : String → Response)
    (find_divs : String → String → List String) (url div_class : String) :
    ((get url).status_code = 200 →
      load_website get find_divs url div_class
        = Except.ok (String.intercalate "\n"
            ((find_divs (get url).text div_class).map String.trim))) ∧
    ((get url).status_code ≠ 200 →
      load_website get find_divs url div_class
        = Except.error PyError.unboundLocal) := by
  constructor
  · intro h
    simp [load_website, h]
  · intro h
    simp [load_website, h]

theorem claim_C7_amended_witness :
    load_website http200 findTwo "u" "d"
      = Except.ok (String.intercalate "\n"
          ((findTwo (http200 "u").text "d").map String.trim)) ∧
    load_website http404 findNone "u" "d" = Except.error PyError.unboundLocal :=
  ⟨(claim_C7_amended http200 findTwo "u" "d").1 rfl,
   (claim_C7_amended http404 findNone "u" "d").2 (by decide)⟩

/-- C8: when the registry's `"wordcount"` metric holds exactly two labels,
each bound to a word Counter (built by `compute_word_count`) with at least
two distinct words, the Sankey edge list for k = 2 has exactly
4 rows (2 labels × top-2 words), and every row's count is positive. -/
theorem claim_C8 (data : Registry) (L1 L2 : Label) (t1 t2 : String)
    (h : dictFind data "wordcount"
      = some [(L1, MetricValue.counter (compute_word_count t1)),
              (L2, MetricValue.counter (compute_word_count t2))])
    (h1 : 2 ≤ (compute_word_count t1).length)
    (h2 : 2 ≤ (compute_word_count t2).length) :
    (TextLibrary.sankey_rows data 2).1.length = 4 ∧
    ∀ r ∈ (TextLibrary.sankey_rows data 2).1, 0 < r.2.2 := by
  have hdd : dd_getitem data "wordcount"
      = ([(L1, MetricValue.counter (compute_word_count t1)),
          (L2, MetricValue.counter (compute_word_count t2))], data) := by
    unfold dd_getitem
    rw [h]
  constructor
  · simp only [TextLibrary.sankey_rows, hdd, List.foldr_cons, List.foldr_nil,
      MetricValue.asCounter, List.append_nil, List.length_append, List.length_map]
    rw [length_most_common _ _ h1, length_most_common _ _ h2]
  · intro r hr
    simp only [TextLibrary.sankey_rows, hdd, List.foldr_cons, List.foldr_nil,
      MetricValue.asCounter, List.append_nil, List.mem_append] at hr
    rcases hr with hr | hr
    · obtain ⟨q, hq, he⟩ := List.mem_map.mp hr
      rw [← he]
      exact counterOf_mem_pos _ q (mem_most_common _ _ q hq)
    · obtain ⟨q, hq, he⟩ := List.mem_map.mp hr
      rw [← he]
      exact counterOf_mem_pos _ q (mem_most_common _ _ q hq)

/-- The concrete registry of the C8 witness: two labels, each with a
two-distinct-word Counter. -/
def dataC8 : Registry :=
  [("wordcount",
    [((some "A" : Label), MetricValue.counter (compute_word_count "a a b")),
     ((some "B" : Label), MetricValue.counter (compute_word_count "c d"))])]

theorem claim_C8_witness :
    (TextLibrary.sankey_rows dataC8 2).1.length = 4 ∧
    ∀ r ∈ (TextLibrary.sankey_rows dataC8 2).1, 0 < r.2.2 :=
  claim_C8 dataC8 (some "A") (some "B") "a a b" "c d"
    (by decide) (by decide) (by decide)

end NLPLib
